import Mathlib

/-!
# GraphRAG core: a shallow embedding in Lean 4

This file embeds the data model, canonicalization layer, ingestion writer and
hybrid retrieval engine of the GraphRAG repository (`models.py`, `ingest.py`,
`retriever.py`) as executable Lean definitions, and proves the specification
claims about them.

Strings are handled through their underlying character lists (`String.data`)
so that every definition reduces in the kernel; the Python functions `str.strip`,
`str.upper`, `str.lower` and the character-class regular expressions of
`models.py` are modelled character by character (ASCII reading of `\w`, which
suffices for every value the repository manipulates).
-/

namespace GraphRAG

/-- Python `\w` character class (ASCII reading): alphanumeric or underscore. -/
def isWordChar (c : Char) : Bool :=
  c.isAlphanum || c = '_'

/-- Characters kept by the deletion regex of `models.sanitize_text`
(pattern `[^\w\s\-.,!?]`): word characters, whitespace, and `- . , ! ?`. -/
def sanitizeAllowed (c : Char) : Bool :=
  isWordChar c || c.isWhitespace || c = '-' || c = '.' || c = ',' || c = '!' || c = '?'

/-- Python `str.strip()` on a character list: drop leading and trailing
whitespace. -/
def pyStrip (l : List Char) : List Char :=
  ((l.dropWhile Char.isWhitespace).reverse.dropWhile Char.isWhitespace).reverse

/-- Python regex replacement of `--+` by the empty string: it deletes every
maximal run of two or more consecutive dashes and keeps a lone dash;
equivalently, a dash survives iff neither of its neighbours is a dash.
`prevDash` records whether the previous input character was a dash. -/
def removeDashRunsAux (prevDash : Bool) : List Char → List Char
  | [] => []
  | c :: rest =>
    if c = '-' then
      if prevDash = false ∧ rest.head? ≠ some '-' then
        '-' :: removeDashRunsAux true rest
      else removeDashRunsAux true rest
    else c :: removeDashRunsAux false rest

/-- Deletion of double-dash runs (pattern `--+`) on a character list. -/
def removeDashRuns (l : List Char) : List Char :=
  removeDashRunsAux false l

/-- Model of `models.sanitize_text`: empty input yields `""`; otherwise strip
whitespace, drop characters outside the allow-list, delete double-dash runs,
and truncate to 500 characters. -/
def sanitize_text (s : String) : String :=
  if s.data = [] then ""
  else String.mk ((removeDashRuns ((pyStrip s.data).filter sanitizeAllowed)).take 500)

/-- Model of `models.ALLOWED_RELATION_TYPES`, in source order. -/
def ALLOWED_RELATION_TYPES : List String :=
  ["WORKS_AT", "LOCATED_IN", "PART_OF", "RELATED_TO", "MANAGES", "REPORTS_TO",
   "OWNS", "FOUNDED", "ACQUIRED", "INVESTED_IN", "COLLABORATED_WITH",
   "EMPLOYED_BY", "BASED_IN", "MEMBER_OF", "SUBSIDIARY_OF", "PARTNER_OF",
   "COMPETES_WITH", "SUPPLIES_TO", "INTERACTS_WITH"]

/-- Model of `models.RELATION_MAPPING`, an alias table from synonyms to canonical
types, in source order. -/
def RELATION_MAPPING : List (String × String) :=
  [("CEO_OF", "MANAGES"), ("IS_CEO", "MANAGES"), ("CEO", "MANAGES"),
   ("WORKS_FOR", "WORKS_AT"), ("EMPLOYED_AT", "WORKS_AT"), ("EMPLOYEE_OF", "WORKS_AT"),
   ("LOCATED_AT", "LOCATED_IN"), ("IN_LOCATION", "LOCATED_IN"), ("HAS_LOCATION", "LOCATED_IN"),
   ("IS_PART_OF", "PART_OF"), ("BELONGS_TO", "PART_OF"), ("COMPONENT_OF", "PART_OF"),
   ("RELATED", "RELATED_TO"), ("ASSOCIATED_WITH", "RELATED_TO"), ("CONNECTED_TO", "RELATED_TO")]

/-- Dictionary access `RELATION_MAPPING[relation]`. -/
def relationMappingLookup (r : String) : Option String :=
  RELATION_MAPPING.lookup r

/-- Python regex replacement of `_+` by a single underscore: collapse every
maximal run of consecutive underscores; an underscore is emitted only at the
start of a run (`prevU` records whether the previous character was an
underscore). -/
def collapseUnderscoresAux (prevU : Bool) : List Char → List Char
  | [] => []
  | c :: rest =>
    if c = '_' then
      if prevU then collapseUnderscoresAux true rest
      else '_' :: collapseUnderscoresAux true rest
    else c :: collapseUnderscoresAux false rest

/-- Collapse of underscore runs (pattern `_+`) on a character list. -/
def collapseUnderscores (l : List Char) : List Char :=
  collapseUnderscoresAux false l

/-- Python `str.strip` with an underscore argument: drop leading and trailing
underscores. -/
def stripUnderscores (l : List Char) : List Char :=
  ((l.dropWhile (fun x => x = '_')).reverse.dropWhile (fun x => x = '_')).reverse

/-- The string-processing pipeline of `models.normalize_relation_type`:
strip and upper-case, replace non-word characters (pattern `[^\w_]`) by an
underscore, collapse repeated underscores, strip boundary underscores. -/
def canonicalizeRelationKey (s : String) : String :=
  String.mk (stripUnderscores (collapseUnderscores
    (((pyStrip s.data).map Char.toUpper).map (fun c => if isWordChar c then c else '_'))))

/-- Model of `models.normalize_relation_type`: canonicalize the key, return it when it
is already in the taxonomy, otherwise consult the alias table, otherwise fall
back to `"RELATED_TO"`. -/
def normalize_relation_type (relation : String) : String :=
  if canonicalizeRelationKey relation ∈ ALLOWED_RELATION_TYPES then
    canonicalizeRelationKey relation
  else
    match relationMappingLookup (canonicalizeRelationKey relation) with
    | some v => v
    | none => "RELATED_TO"

/-- Python slicing `s[:n]`. -/
def pyTake (s : String) (n : Nat) : String :=
  String.mk (s.data.take n)

/-- Python `str.lower()` (ASCII reading). -/
def pyLower (s : String) : String :=
  String.mk (s.data.map Char.toLower)

/-- A validated `models.Entity`. -/
structure Entity where
  name : String
  type : String
  description : Option String
deriving DecidableEq, Repr

/-- Model of `Entity.sanitize_fields`: sanitize, then (since the condition
`cls.model_fields.get("name")` is always truthy) re-truncate to 500 when
sanitization left the value unchanged. -/
def entitySanitizeField (v : String) : String :=
  let sanitized := sanitize_text v
  if v = sanitized then pyTake sanitized 500 else sanitized

/-- Pydantic construction of `models.Entity`: `min_length=1` is checked on the
raw value, then the `sanitize_fields` and `normalize_type` validators run in
declaration order. -/
def Entity.construct (name ty : String) (descr : Option String) : Except String Entity :=
  if name.data = [] then Except.error "name: String should have at least 1 character"
  else if ty.data = [] then Except.error "type: String should have at least 1 character"
  else
    Except.ok
      { name := entitySanitizeField name
        type := pyTake (String.mk ((pyStrip (entitySanitizeField ty).data).map Char.toUpper)) 100
        description := descr.map entitySanitizeField }

/-- A validated `models.Relationship`. -/
structure Relationship where
  source : String
  target : String
  relation_type : String
  description : Option String
deriving DecidableEq, Repr

/-- Model of `Relationship.sanitize_fields`: sanitize then truncate to 500. -/
def relSanitizeField (v : String) : String :=
  pyTake (sanitize_text v) 500

/-- Pydantic construction of `models.Relationship`: `min_length=1` on the raw
values, then sanitization of `source`/`target`/`description` and
normalization (plus truncation to 100) of `relation_type`. -/
def Relationship.construct (source target relation_type : String)
    (descr : Option String) : Except String Relationship :=
  if source.data = [] then Except.error "source: String should have at least 1 character"
  else if target.data = [] then Except.error "target: String should have at least 1 character"
  else if relation_type.data = [] then
    Except.error "relation_type: String should have at least 1 character"
  else
    Except.ok
      { source := relSanitizeField source
        target := relSanitizeField target
        relation_type := pyTake (normalize_relation_type relation_type) 100
        description := descr.map relSanitizeField }

/-- First-seen deduplication with an explicit `seen` set of keys, as in the
`KnowledgeGraph` validators (`seen = set(); for x in v: ...`). -/
def dedupBy {α : Type} {κ : Type} [DecidableEq κ] (key : α → κ) :
    List κ → List α → List α
  | _, [] => []
  | seen, a :: rest =>
    if key a ∈ seen then dedupBy key seen rest
    else a :: dedupBy key (key a :: seen) rest

/-- Identity key of an entity: case-insensitive name (`entity.name.lower()`). -/
def entityKey (e : Entity) : String :=
  pyLower e.name

/-- Identity key of a relationship:
`(rel.source.lower(), rel.relation_type, rel.target.lower())`. -/
def relKey (r : Relationship) : String × String × String :=
  (pyLower r.source, r.relation_type, pyLower r.target)

/-- A validated `models.KnowledgeGraph` (an extraction unit). -/
structure KnowledgeGraph where
  entities : List Entity
  relationships : List Relationship
deriving DecidableEq, Repr

/-- Pydantic construction of `models.KnowledgeGraph`: the
`deduplicate_entities` and `deduplicate_relationships` validators drop every
element whose identity key was already seen, keeping first-seen order. -/
def KnowledgeGraph.construct (entities : List Entity)
    (relationships : List Relationship) : KnowledgeGraph :=
  { entities := dedupBy entityKey [] entities
    relationships := dedupBy relKey [] relationships }

/-! ## Ingestion: `ingest.IngestionPipeline._write_to_neo4j` -/

/-- Row of the `$entities` parameter list: `{name, type, description or ""}`. -/
structure EntityRow where
  name : String
  type : String
  description : String
deriving DecidableEq, Repr

/-- Row of the `$rels` parameter lists:
`{source, target, relation_type, description or ""}`. -/
structure RelRow where
  source : String
  target : String
  relation_type : String
  description : String
deriving DecidableEq, Repr

/-- Flattening of all entities across the batch of knowledge graphs
(`all_entities` in `_write_to_neo4j`). -/
def allEntitiesOf (kgs : List KnowledgeGraph) : List EntityRow :=
  kgs.flatMap fun kg => kg.entities.map fun e =>
    { name := e.name, type := e.type, description := e.description.getD "" }

/-- Flattening of all relationships across the batch
(`all_relationships` in `_write_to_neo4j`). -/
def allRelationshipsOf (kgs : List KnowledgeGraph) : List RelRow :=
  kgs.flatMap fun kg => kg.relationships.map fun r =>
    { source := r.source, target := r.target,
      relation_type := r.relation_type, description := r.description.getD "" }

/-- The distinct relation types of the batch in first-occurrence order: the
keys of the `rels_by_type` grouping dictionary (Python dicts preserve
insertion order). -/
def distinctRelTypes (kgs : List KnowledgeGraph) : List String :=
  dedupBy (fun s => s) [] ((allRelationshipsOf kgs).map (·.relation_type))

/-- The graph store, abstracted to what the batched Cypher of
`_write_to_neo4j` can observe: the set of `Entity` node names (the store
keeps a uniqueness constraint on `name`, and `MERGE (e:Entity {name: ...})`
keys on it) and the set of edges `(source name, relation type, target name)`
(`MERGE (source)-[r:TYPE]->(target)` keys on the endpoint pair and the type).
`SET` only overwrites properties and is invisible at this granularity. -/
structure GraphState where
  nodes : Finset String
  edges : Finset (String × String × String)
deriving DecidableEq

/-- Edges produced by the per-type relationship queries: a row yields an edge
iff both endpoints were matched, i.e. both names exist as nodes; no implicit
node creation. -/
def edgesFromBatch (nodes : Finset String) (rels : List RelRow) :
    Finset (String × String × String) :=
  ((rels.filter fun r => decide (r.source ∈ nodes) && decide (r.target ∈ nodes)).map
    fun r => (r.source, r.relation_type, r.target)).toFinset

/-- Effect of `_write_to_neo4j` on the store, together with the number of
`session.run` calls it issues: first one batched `UNWIND ... MERGE` for all
entities (skipped when `all_entities` is empty), then — when
`all_relationships` is non-empty — one batched query per distinct relation
type, whose endpoint `MATCH`es run against the store as left by the entity
phase. -/
def writeToNeo4j (st : GraphState) (kgs : List KnowledgeGraph) : GraphState × Nat :=
  let ents := allEntitiesOf kgs
  let nodes1 := if ents = [] then st.nodes else st.nodes ∪ (ents.map (·.name)).toFinset
  let entOps : Nat := if ents = [] then 0 else 1
  let rels := allRelationshipsOf kgs
  let edges1 := if rels = [] then st.edges else st.edges ∪ edgesFromBatch nodes1 rels
  let relOps : Nat := if rels = [] then 0 else (distinctRelTypes kgs).length
  ({ nodes := nodes1, edges := edges1 }, entOps + relOps)

/-! ## Ingestion: extraction orchestrator
(`_extract_knowledge_from_chunk` / `_extract_knowledge_parallel`) -/

/-- Outcome of one LLM call for one chunk: the call raises, or returns
content that is not valid JSON, or returns content parsed into a
knowledge graph. -/
inductive LLMAttempt where
  | raises
  | malformedJSON
  | good (kg : KnowledgeGraph)
deriving DecidableEq

/-- The retry loop `@retry(stop=stop_after_attempt(3), ..., reraise=True)`
around `_extract_knowledge_from_chunk`. `att i` is the behaviour of the i-th
LLM call for this chunk; the second component counts LLM calls actually made.
A malformed-JSON response is caught inside the function body and turned into
a normal `None` return, so tenacity does not retry it; a raise is retried
until the attempts are exhausted, then reraised. -/
def extractChunkLoop (att : Nat → LLMAttempt) : Nat → Nat →
    Except String (Option KnowledgeGraph) × Nat
  | 0, calls => (Except.error "extraction failed", calls)
  | fuel + 1, calls =>
    match att calls with
    | .good kg => (Except.ok (some kg), calls + 1)
    | .malformedJSON => (Except.ok none, calls + 1)
    | .raises =>
      if fuel = 0 then (Except.error "extraction failed", calls + 1)
      else extractChunkLoop att fuel (calls + 1)

/-- Model of `_extract_knowledge_from_chunk` under its retry policy
(3 attempts). -/
def extractChunk (att : Nat → LLMAttempt) :
    Except String (Option KnowledgeGraph) × Nat :=
  extractChunkLoop att 3 0

/-- Specification-level description of a chunk outcome: the first of the
three attempts that does not raise settles the chunk — a knowledge graph on
good JSON, nothing on malformed JSON or three raises. -/
def chunkSuccess (att : Nat → LLMAttempt) : Option KnowledgeGraph :=
  match att 0 with
  | .good kg => some kg
  | .malformedJSON => none
  | .raises =>
    match att 1 with
    | .good kg => some kg
    | .malformedJSON => none
    | .raises =>
      match att 2 with
      | .good kg => some kg
      | _ => none

/-- Model of `_extract_knowledge_parallel`: gather all chunk outcomes
(`asyncio.gather(..., return_exceptions=True)`), drop exceptions and `None`
results, and return the successful knowledge graphs in chunk order. -/
def extractParallel (batch : List (Nat → LLMAttempt)) : List KnowledgeGraph :=
  batch.filterMap fun att =>
    match (extractChunk att).1 with
    | Except.ok (some kg) => some kg
    | _ => none

/-! ## Hybrid retrieval: `retriever.HybridRetriever.retrieve` -/

/-- A validated `models.QueryRequest`. -/
structure QueryRequest where
  query : String
  use_vector_search : Bool
  use_graph_search : Bool
deriving DecidableEq, Repr

/-- Model of `models.QueryResponse`. -/
structure QueryResponse where
  answer : String
  vector_context : List String
  graph_context : String
  sources : List String
deriving DecidableEq, Repr

/-- Behaviour of the vector store for one query: `_vector_search` either
returns snippets or (after its retries are exhausted, `reraise=True`) raises. -/
inductive VecBehavior where
  | ok (snippets : List String)
  | failsAllAttempts
deriving DecidableEq

/-- Behaviour of the graph branch for one query: `_graph_search_sync` either
returns the textual chain result or fails internally, in which case its
`except` clause returns the message prefixed by "Graph search unavailable: "
instead of raising. -/
inductive GraphBehavior where
  | ok (context : String)
  | failsInternally (msg : String)
deriving DecidableEq

/-- Behaviour of `_synthesize_answer` for one query: the LLM call either
returns an answer or fails on all retry attempts (`reraise=True`). -/
inductive LLMBehavior where
  | ok (answer : String)
  | failsAllAttempts
deriving DecidableEq

/-- Behaviours of the three external collaborators during one `retrieve`. -/
structure RetrieveEnv where
  vec : VecBehavior
  graph : GraphBehavior
  llm : LLMBehavior
deriving DecidableEq

/-- Which collaborators were actually called during `retrieve`. -/
structure RetrieveTrace where
  vectorCalled : Bool
  graphCalled : Bool
  llmCalled : Bool
deriving DecidableEq, Repr

/-- Model of `_graph_search_sync`: returns the chain result, or converts any
internal exception into a non-empty "unavailable" string. -/
def graphSearchSync (b : GraphBehavior) : String :=
  match b with
  | .ok context => context
  | .failsInternally msg => "Graph search unavailable: " ++ msg

/-- The fixed no-relevant-information answer of `retrieve`. -/
def noInfoAnswer : String :=
  "I couldn't find any relevant information to answer your question."

/-- The `vector_context` computed by `retrieve`: the branch runs only when
requested, and its `try/except` replaces an exhausted-retries raise with the
initial empty list. -/
def vectorBranch (req : QueryRequest) (env : RetrieveEnv) : List String :=
  if req.use_vector_search then
    match env.vec with
    | .ok snippets => snippets
    | .failsAllAttempts => []
  else []

/-- The `graph_context` computed by `retrieve`: the branch runs only when
requested and never raises. -/
def graphBranch (req : QueryRequest) (env : RetrieveEnv) : String :=
  if req.use_graph_search then graphSearchSync env.graph else ""

/-- Model of `HybridRetriever.retrieve`: if both contexts are empty the fixed
no-information response is returned without a synthesis call; otherwise
`_synthesize_answer` is invoked and — having no surrounding `try` — its
failure propagates out of `retrieve`. -/
def retrieve (req : QueryRequest) (env : RetrieveEnv) :
    Except String QueryResponse × RetrieveTrace :=
  if vectorBranch req env = [] ∧ graphBranch req env = "" then
    (Except.ok { answer := noInfoAnswer, vector_context := [],
                 graph_context := "", sources := [] },
     { vectorCalled := req.use_vector_search,
       graphCalled := req.use_graph_search, llmCalled := false })
  else
    match env.llm with
    | .ok answer =>
      (Except.ok
        { answer := answer
          vector_context := vectorBranch req env
          graph_context := graphBranch req env
          sources :=
            (if vectorBranch req env ≠ [] then ["Vector Search"] else []) ++
              (if graphBranch req env ≠ "" then ["Knowledge Graph"] else []) },
       { vectorCalled := req.use_vector_search,
         graphCalled := req.use_graph_search, llmCalled := true })
    | .failsAllAttempts =>
      (Except.error "answer synthesis failed",
       { vectorCalled := req.use_vector_search,
         graphCalled := req.use_graph_search, llmCalled := true })

/-- Two consecutive dashes occur somewhere in the list. -/
def hasDoubleDash : List Char → Bool
  | a :: b :: rest => (a = '-' && b = '-') || hasDoubleDash (b :: rest)
  | _ => false

/-! ## Properties of the canonicalization layer -/

lemma hasDoubleDash_cons_eq_false (a : Char) (l : List Char)
    (h : a ≠ '-' ∨ l.head? ≠ some '-') (hl : hasDoubleDash l = false) :
    hasDoubleDash (a :: l) = false := by
  cases l with
  | nil => rfl
  | cons b t =>
    have hb : ¬(a = '-' ∧ b = '-') := by
      rcases h with h | h
      · exact fun hc => h hc.1
      · exact fun hc => h (by simp [hc.2])
    simp only [hasDoubleDash, Bool.or_eq_false_iff]
    refine ⟨?_, hl⟩
    simp only [Bool.and_eq_false_iff, decide_eq_false_iff_not]
    by_cases ha : a = '-'
    · exact Or.inr fun hbb => hb ⟨ha, hbb⟩
    · exact Or.inl ha

lemma removeDashRunsAux_head? (b : Bool) (l : List Char)
    (h : l.head? ≠ some '-') : (removeDashRunsAux b l).head? ≠ some '-' := by
  cases l with
  | nil => simp [removeDashRunsAux]
  | cons c rest =>
    have hc : c ≠ '-' := by simpa using h
    simp [removeDashRunsAux, hc]

lemma removeDashRunsAux_noDoubleDash (l : List Char) :
    ∀ b, hasDoubleDash (removeDashRunsAux b l) = false := by
  induction l with
  | nil => intro b; rfl
  | cons c rest ih =>
    intro b
    by_cases hc : c = '-'
    · subst hc
      simp only [removeDashRunsAux, if_pos rfl]
      by_cases hkeep : b = false ∧ rest.head? ≠ some '-'
      · rw [if_pos hkeep]
        exact hasDoubleDash_cons_eq_false _ _
          (Or.inr (removeDashRunsAux_head? true rest hkeep.2)) (ih true)
      · rw [if_neg hkeep]; exact ih true
    · simp only [removeDashRunsAux, if_neg hc]
      exact hasDoubleDash_cons_eq_false _ _ (Or.inl hc) (ih false)

lemma hasDoubleDash_take (l : List Char) :
    ∀ n, hasDoubleDash l = false → hasDoubleDash (l.take n) = false := by
  induction l with
  | nil => intro n h; simp [hasDoubleDash]
  | cons a rest ih =>
    intro n h
    cases n with
    | zero => rfl
    | succ m =>
      cases rest with
      | nil => cases m <;> rfl
      | cons b t =>
        have h2 : (decide (a = '-') && decide (b = '-')) = false ∧
            hasDoubleDash (b :: t) = false := by
          simpa [hasDoubleDash, Bool.or_eq_false_iff] using h
        cases m with
        | zero => rfl
        | succ k =>
          have := ih (k + 1) h2.2
          simp only [List.take, hasDoubleDash, Bool.or_eq_false_iff]
          exact ⟨h2.1, this⟩

lemma removeDashRunsAux_mem (l : List Char) :
    ∀ b x, x ∈ removeDashRunsAux b l → x ∈ l := by
  induction l with
  | nil => intro b x h; simp [removeDashRunsAux] at h
  | cons c rest ih =>
    intro b x h
    by_cases hc : c = '-'
    · subst hc
      simp only [removeDashRunsAux, if_pos rfl] at h
      by_cases hkeep : b = false ∧ rest.head? ≠ some '-'
      · rw [if_pos hkeep] at h
        rcases List.mem_cons.1 h with h | h
        · exact h ▸ List.mem_cons_self _ _
        · exact List.mem_cons_of_mem _ (ih true x h)
      · rw [if_neg hkeep] at h
        exact List.mem_cons_of_mem _ (ih true x h)
    · simp only [removeDashRunsAux, if_neg hc] at h
      rcases List.mem_cons.1 h with h | h
      · exact h ▸ List.mem_cons_self _ _
      · exact List.mem_cons_of_mem _ (ih false x h)

lemma lookup_mem_values {α β : Type} [BEq α] :
    ∀ (M : List (α × β)) (r : α) (v : β), M.lookup r = some v → v ∈ M.map Prod.snd := by
  intro M
  induction M with
  | nil => intro r v h; simp [List.lookup] at h
  | cons p rest ih =>
    intro r v h
    obtain ⟨k, b⟩ := p
    rw [List.lookup] at h
    by_cases hb : (r == k) = true
    · rw [hb] at h
      simp only [List.map, List.mem_cons]
      exact Or.inl (Option.some.inj h).symm
    · rw [Bool.not_eq_true] at hb
      rw [hb] at h
      exact List.mem_cons_of_mem _ (ih r v h)

lemma relationMappingLookup_mem (r v : String)
    (h : relationMappingLookup r = some v) : v ∈ ALLOWED_RELATION_TYPES := by
  have hv := lookup_mem_values RELATION_MAPPING r v h
  have hall : (RELATION_MAPPING.map Prod.snd).all
      (fun x => decide (x ∈ ALLOWED_RELATION_TYPES)) = true := by decide
  simpa using (List.all_eq_true.1 hall) v hv


lemma dedupBy_not_mem_seen {α κ : Type} [DecidableEq κ] (key : α → κ) :
    ∀ (l : List α) (seen : List κ) (a : α), a ∈ dedupBy key seen l → key a ∉ seen := by
  intro l
  induction l with
  | nil => intro seen a h; simp [dedupBy] at h
  | cons c rest ih =>
    intro seen a h
    by_cases hc : key c ∈ seen
    · rw [dedupBy, if_pos hc] at h
      exact ih seen a h
    · rw [dedupBy, if_neg hc] at h
      rcases List.mem_cons.1 h with h | h
      · exact h ▸ hc
      · intro hsa
        exact ih (key c :: seen) a h (List.mem_cons_of_mem _ hsa)

lemma dedupBy_pairwise {α κ : Type} [DecidableEq κ] (key : α → κ) :
    ∀ (l : List α) (seen : List κ),
      (dedupBy key seen l).Pairwise (fun a b => key a ≠ key b) := by
  intro l
  induction l with
  | nil => intro seen; exact List.Pairwise.nil
  | cons c rest ih =>
    intro seen
    by_cases hc : key c ∈ seen
    · rw [dedupBy, if_pos hc]; exact ih seen
    · rw [dedupBy, if_neg hc]
      refine List.Pairwise.cons ?_ (ih (key c :: seen))
      intro b hb hkey
      exact dedupBy_not_mem_seen key rest (key c :: seen) b hb
        (hkey ▸ List.mem_cons_self _ _)

lemma dedupBy_sublist {α κ : Type} [DecidableEq κ] (key : α → κ) :
    ∀ (l : List α) (seen : List κ), (dedupBy key seen l).Sublist l := by
  intro l
  induction l with
  | nil => intro seen; exact List.Sublist.refl _
  | cons c rest ih =>
    intro seen
    by_cases hc : key c ∈ seen
    · rw [dedupBy, if_pos hc]; exact (ih seen).cons _
    · rw [dedupBy, if_neg hc]; exact (ih (key c :: seen)).cons₂ _

lemma dedupBy_covers {α κ : Type} [DecidableEq κ] (key : α → κ) :
    ∀ (l : List α) (seen : List κ) (a : α), a ∈ l → key a ∉ seen →
      ∃ b ∈ dedupBy key seen l, key b = key a := by
  intro l
  induction l with
  | nil => intro seen a ha _; simp at ha
  | cons c rest ih =>
    intro seen a ha hseen
    by_cases hc : key c ∈ seen
    · rw [dedupBy, if_pos hc]
      rcases List.mem_cons.1 ha with rfl | ha2
      · exact absurd hc (by exact hseen)
      · exact ih seen a ha2 hseen
    · rw [dedupBy, if_neg hc]
      by_cases hkey : key a = key c
      · exact ⟨c, List.mem_cons_self _ _, hkey.symm⟩
      · rcases List.mem_cons.1 ha with rfl | ha2
        · exact absurd rfl hkey
        · obtain ⟨b, hb, hbk⟩ := ih (key c :: seen) a ha2 (by
            intro hmem
            rcases List.mem_cons.1 hmem with h | h
            · exact hkey h
            · exact hseen h)
          exact ⟨b, List.mem_cons_of_mem _ hb, hbk⟩

lemma string_eq_empty_iff (s : String) : s = "" ↔ s.data = [] := by
  obtain ⟨data⟩ := s
  constructor
  · intro h
    rw [h]
  · intro h
    cases data with
    | nil => rfl
    | cons c t => exact List.noConfusion h

lemma normalize_relation_type_mem (s : String) :
    normalize_relation_type s ∈ ALLOWED_RELATION_TYPES := by
  unfold normalize_relation_type
  split
  · assumption
  · split
    · exact relationMappingLookup_mem _ _ (by assumption)
    · decide

lemma pyTake_100_of_allowed (v : String) (hv : v ∈ ALLOWED_RELATION_TYPES) :
    pyTake v 100 = v := by
  have hall : ALLOWED_RELATION_TYPES.all (fun x => decide (pyTake x 100 = x)) = true := by
    decide
  simpa using (List.all_eq_true.1 hall) v hv

lemma extractChunk_eq_chunkSuccess (att : Nat → LLMAttempt) :
    (match (extractChunk att).1 with
      | Except.ok (some kg) => some kg
      | _ => none) = chunkSuccess att := by
  rcases h0 : att 0 with _ | _ | kg0 <;> rcases h1 : att 1 with _ | _ | kg1 <;>
    rcases h2 : att 2 with _ | _ | kg2 <;>
      simp [extractChunk, extractChunkLoop, chunkSuccess, h0, h1, h2]

/-! ## The specification claims -/

/-- C1, counterexample: the claim says construction fails whenever a field
sanitizes to the empty string, but `min_length=1` is checked on the raw value
before the sanitizing validator runs, so the raw input `"<"` (which sanitizes
to `""`) is accepted and `Entity` construction succeeds with an empty name. -/
theorem C1_counterexample :
    sanitize_text "<" = "" ∧
    Entity.construct "<" "PERSON" none =
      Except.ok { name := "", type := "PERSON", description := none } ∧
    Relationship.construct "<" "Bob" "WORKS_AT" none =
      Except.ok { source := "", target := "Bob",
                  relation_type := "WORKS_AT", description := none } :=
  ⟨rfl, rfl, rfl⟩

/-- C1, amended: `Entity` and `Relationship` construction fails validation
exactly when a required raw field is empty before sanitization; a non-empty
raw string that sanitizes to the empty string is accepted (the resulting
field is then empty). The `relation_type` field, however, is never empty
after construction, because normalization is total onto the canonical
taxonomy. -/
theorem C1_raw_min_length_only (name ty source target rt : String) (d : Option String) :
    ((∃ e, Entity.construct name ty d = Except.ok e) ↔ (name ≠ "" ∧ ty ≠ "")) ∧
    ((∃ r, Relationship.construct source target rt d = Except.ok r) ↔
      (source ≠ "" ∧ target ≠ "" ∧ rt ≠ "")) ∧
    (∀ r, Relationship.construct source target rt d = Except.ok r →
      r.relation_type ∈ ALLOWED_RELATION_TYPES) := by
  refine ⟨?_, ?_, ?_⟩
  · by_cases hn : name.data = [] <;> by_cases ht : ty.data = [] <;>
      simp [Entity.construct, hn, ht, string_eq_empty_iff]
  · by_cases hs : source.data = [] <;> by_cases htg : target.data = [] <;>
      by_cases hr : rt.data = [] <;>
        simp [Relationship.construct, hs, htg, hr, string_eq_empty_iff]
  · intro r hr
    by_cases hs : source.data = []
    · simp [Relationship.construct, hs] at hr
    · by_cases htg : target.data = []
      · simp [Relationship.construct, hs, htg] at hr
      · by_cases hrt : rt.data = []
        · simp [Relationship.construct, hs, htg, hrt] at hr
        · simp only [Relationship.construct, if_neg hs, if_neg htg, if_neg hrt] at hr
          injection hr with h2
          subst h2
          show pyTake (normalize_relation_type rt) 100 ∈ ALLOWED_RELATION_TYPES
          rw [pyTake_100_of_allowed _ (normalize_relation_type_mem rt)]
          exact normalize_relation_type_mem rt

/-- C1, witness for the amended theorem at concrete inputs. -/
theorem C1_raw_min_length_only_witness :
    (∃ e, Entity.construct "Alice" "PERSON" none = Except.ok e) ∧
    Relationship.relation_type
      { source := "Alice", target := "Bob", relation_type := "MANAGES",
        description := none } ∈ ALLOWED_RELATION_TYPES := by
  have h := C1_raw_min_length_only "Alice" "PERSON" "Alice" "Bob" "ceo_of" none
  exact ⟨h.1.mpr ⟨by decide, by decide⟩,
    h.2.2 { source := "Alice", target := "Bob", relation_type := "MANAGES",
            description := none } rfl⟩

/-- C2, counterexample: the claim says `retrieve` never raises for any
behaviour of the collaborators, but when the vector branch returns a snippet
and the synthesis model fails on all attempts, the retry decorator reraises
and `retrieve` has no surrounding handler, so the exception escapes. -/
theorem C2_counterexample :
    (retrieve { query := "q", use_vector_search := true, use_graph_search := false }
      { vec := VecBehavior.ok ["snippet"], graph := GraphBehavior.ok "",
        llm := LLMBehavior.failsAllAttempts }).1 =
      Except.error "answer synthesis failed" := rfl

/-- C2, amended: for every request and every behaviour of the vector store,
the graph store and the language model, `retrieve` either returns a
`QueryResponse` (the fixed no-information answer when both branches yield
nothing), or propagates an answer-synthesis failure — the only way it can
raise is an LLM failure on all attempts of a synthesis call it actually
made. -/
theorem C2_raises_only_from_synthesis (req : QueryRequest) (env : RetrieveEnv) :
    (∃ resp, (retrieve req env).1 = Except.ok resp) ∨
    ((retrieve req env).1 = Except.error "answer synthesis failed" ∧
      env.llm = LLMBehavior.failsAllAttempts ∧
      (retrieve req env).2.llmCalled = true) := by
  unfold retrieve
  by_cases h : vectorBranch req env = [] ∧ graphBranch req env = ""
  · rw [if_pos h]
    exact Or.inl ⟨_, rfl⟩
  · rw [if_neg h]
    cases hllm : env.llm with
    | ok a => exact Or.inl ⟨_, rfl⟩
    | failsAllAttempts => exact Or.inr ⟨rfl, rfl, rfl⟩

/-- C3, counterexample: the claim says that when the vector branch fails and
the graph branch also fails, `retrieve` returns the fixed no-information
answer without a synthesis call; but an internal graph failure is converted
by `_graph_search_sync` into the non-empty string
"Graph search unavailable: ..." which counts as graph context, so the
synthesis model is called and its answer is returned with source
"Knowledge Graph". -/
theorem C3_counterexample :
    ((retrieve { query := "q", use_vector_search := true, use_graph_search := true }
      { vec := VecBehavior.failsAllAttempts,
        graph := GraphBehavior.failsInternally "connection refused",
        llm := LLMBehavior.ok "Some answer" }).2.llmCalled = true) ∧
    (retrieve { query := "q", use_vector_search := true, use_graph_search := true }
      { vec := VecBehavior.failsAllAttempts,
        graph := GraphBehavior.failsInternally "connection refused",
        llm := LLMBehavior.ok "Some answer" }).1 =
      Except.ok { answer := "Some answer", vector_context := [],
                  graph_context := "Graph search unavailable: connection refused",
                  sources := ["Knowledge Graph"] } := ⟨rfl, rfl⟩

/-- C3, amended: when the vector branch is disabled, fails, or returns no
snippets, and the graph branch is disabled or returns an empty context
string (rather than failing, which would produce a non-empty "unavailable"
context), `retrieve` returns the fixed no-relevant-information answer with
empty vector context, empty graph context and empty sources, and makes no
language-model synthesis call. -/
theorem C3_empty_branches_fixed_answer (req : QueryRequest) (env : RetrieveEnv)
    (hv : req.use_vector_search = false ∨ env.vec = VecBehavior.failsAllAttempts ∨
      env.vec = VecBehavior.ok [])
    (hg : req.use_graph_search = false ∨ env.graph = GraphBehavior.ok "") :
    retrieve req env =
      (Except.ok { answer := noInfoAnswer, vector_context := [],
                   graph_context := "", sources := [] },
       { vectorCalled := req.use_vector_search,
         graphCalled := req.use_graph_search, llmCalled := false }) := by
  have hv2 : vectorBranch req env = [] := by
    rcases hv with h | h | h <;> simp [vectorBranch, h]
  have hg2 : graphBranch req env = "" := by
    rcases hg with h | h <;> simp [graphBranch, h, graphSearchSync]
  unfold retrieve
  rw [if_pos ⟨hv2, hg2⟩]

/-- C3, witness for the amended theorem at a concrete input. -/
theorem C3_empty_branches_fixed_answer_witness :
    retrieve { query := "q", use_vector_search := true, use_graph_search := true }
      { vec := VecBehavior.failsAllAttempts, graph := GraphBehavior.ok "",
        llm := LLMBehavior.ok "unused" } =
      (Except.ok { answer := noInfoAnswer, vector_context := [],
                   graph_context := "", sources := [] },
       { vectorCalled := true, graphCalled := true, llmCalled := false }) :=
  C3_empty_branches_fixed_answer _ _ (Or.inr (Or.inl rfl)) (Or.inr rfl)

/-- C4: for every batch of extraction units holding at least one entity, the
graph write issues exactly `1 + T` batched `session.run` calls, where `T` is
the number of distinct canonical relation types in the batch, independently
of the number of entities; `distinctRelTypes` is duplicate-free and contains
exactly the relation types occurring in the batch. -/
theorem C4_write_round_trip_bound (kgs : List KnowledgeGraph) (st : GraphState)
    (h : 1 ≤ (allEntitiesOf kgs).length) :
    (writeToNeo4j st kgs).2 = 1 + (distinctRelTypes kgs).length ∧
    (distinctRelTypes kgs).Pairwise (fun a b => a ≠ b) ∧
    (∀ t, t ∈ distinctRelTypes kgs ↔
      t ∈ (allRelationshipsOf kgs).map (fun r => r.relation_type)) := by
  have he : allEntitiesOf kgs ≠ [] := by
    intro hnil; rw [hnil] at h; simp at h
  refine ⟨?_, ?_, ?_⟩
  · simp only [writeToNeo4j, if_neg he]
    by_cases hr : allRelationshipsOf kgs = []
    · rw [if_pos hr]
      have : distinctRelTypes kgs = [] := by
        simp [distinctRelTypes, hr, dedupBy]
      rw [this]
      rfl
    · rw [if_neg hr]
  · exact dedupBy_pairwise _ _ _
  · intro t
    constructor
    · intro ht
      exact (dedupBy_sublist (fun s => s) _ []).mem ht
    · intro ht
      obtain ⟨b, hb, hbk⟩ := dedupBy_covers (fun s => s) _ [] t ht (by simp)
      exact hbk ▸ hb

/-- C4, witness: a batch with three entities and three relationships over two
distinct relation types issues `1 + 2` write operations. -/
theorem C4_write_round_trip_bound_witness :
    (writeToNeo4j { nodes := ∅, edges := ∅ }
      [{ entities := [{ name := "Alice", type := "PERSON", description := none },
                      { name := "Acme", type := "ORGANIZATION", description := none },
                      { name := "Bob", type := "PERSON", description := none }],
         relationships :=
           [{ source := "Alice", target := "Acme", relation_type := "WORKS_AT",
              description := none },
            { source := "Bob", target := "Acme", relation_type := "WORKS_AT",
              description := none },
            { source := "Acme", target := "NYC", relation_type := "LOCATED_IN",
              description := none }] }]).2 =
    1 + (distinctRelTypes
      [{ entities := [{ name := "Alice", type := "PERSON", description := none },
                      { name := "Acme", type := "ORGANIZATION", description := none },
                      { name := "Bob", type := "PERSON", description := none }],
         relationships :=
           [{ source := "Alice", target := "Acme", relation_type := "WORKS_AT",
              description := none },
            { source := "Bob", target := "Acme", relation_type := "WORKS_AT",
              description := none },
            { source := "Acme", target := "NYC", relation_type := "LOCATED_IN",
              description := none }] }]).length :=
  (C4_write_round_trip_bound _ { nodes := ∅, edges := ∅ } (by decide)).1

/-- C5: the graph write is idempotent — for every store state and every batch,
writing the batch twice leaves exactly the node set and edge set produced by
writing it once (`MERGE` keys nodes on the name and edges on the endpoint
pair and relation type, so re-ingesting identical content creates no
duplicate nodes or edges). -/
theorem C5_write_idempotent (st : GraphState) (kgs : List KnowledgeGraph) :
    (writeToNeo4j (writeToNeo4j st kgs).1 kgs).1 = (writeToNeo4j st kgs).1 := by
  by_cases he : allEntitiesOf kgs = [] <;> by_cases hr : allRelationshipsOf kgs = [] <;>
    simp [writeToNeo4j, he, hr, Finset.union_assoc, Finset.union_self]

/-- C6: `normalize_relation_type` is total — for every input string its result
is a member of the canonical taxonomy; when the canonicalized key is neither
in the taxonomy nor in the alias table, the result is the fallback
`"RELATED_TO"`, which is itself canonical; and both `"ceo_of"` and
`"CEO_OF"` normalize to `"MANAGES"`. -/
theorem C6_normalize_total (s : String) :
    normalize_relation_type s ∈ ALLOWED_RELATION_TYPES ∧
    (canonicalizeRelationKey s ∉ ALLOWED_RELATION_TYPES →
      relationMappingLookup (canonicalizeRelationKey s) = none →
      normalize_relation_type s = "RELATED_TO") ∧
    normalize_relation_type "ceo_of" = "MANAGES" ∧
    normalize_relation_type "CEO_OF" = "MANAGES" ∧
    "RELATED_TO" ∈ ALLOWED_RELATION_TYPES := by
  refine ⟨normalize_relation_type_mem s, ?_, by decide, by decide, by decide⟩
  intro h1 h2
  unfold normalize_relation_type
  rw [if_neg h1, h2]

/-- C6, witness: a concrete unrecognized string maps to the fallback type. -/
theorem C6_normalize_total_witness :
    normalize_relation_type "ceo_of" = "MANAGES" ∧
    normalize_relation_type "TOTALLY_UNKNOWN" = "RELATED_TO" := by
  have h := C6_normalize_total "TOTALLY_UNKNOWN"
  exact ⟨h.2.2.1, h.2.1 (by decide) (by decide)⟩

/-- C7: for every input string the output of `sanitize_text` has length at
most 500, contains none of the characters `<`, `>`, `;`, contains no two
consecutive dashes, and the empty input yields the empty string. -/
theorem C7_sanitize_bounds (s : String) :
    (sanitize_text s).length ≤ 500 ∧
    ((sanitize_text s).data.all fun c => !(c = '<') && !(c = '>') && !(c = ';')) = true ∧
    hasDoubleDash (sanitize_text s).data = false ∧
    sanitize_text "" = "" := by
  refine ⟨?_, ?_, ?_, rfl⟩
  · by_cases h : s.data = []
    · simp [sanitize_text, h, String.length]
    · simp only [sanitize_text, if_neg h, String.length]
      exact List.length_take_le _ _
  · by_cases h : s.data = []
    · simp [sanitize_text, h]
    · simp only [sanitize_text, if_neg h]
      rw [List.all_eq_true]
      intro c hc
      have hc1 : c ∈ removeDashRuns ((pyStrip s.data).filter sanitizeAllowed) :=
        (List.take_sublist _ _).mem hc
      have hc2 : c ∈ (pyStrip s.data).filter sanitizeAllowed :=
        removeDashRunsAux_mem _ _ _ hc1
      have hc3 : sanitizeAllowed c = true := (List.mem_filter.1 hc2).2
      have hlt : c ≠ '<' := by rintro rfl; exact absurd hc3 (by decide)
      have hgt : c ≠ '>' := by rintro rfl; exact absurd hc3 (by decide)
      have hsemi : c ≠ ';' := by rintro rfl; exact absurd hc3 (by decide)
      simp [hlt, hgt, hsemi]
  · by_cases h : s.data = []
    · simp [sanitize_text, h, hasDoubleDash]
    · simp only [sanitize_text, if_neg h]
      exact hasDoubleDash_take _ _ (removeDashRunsAux_noDoubleDash _ false)

/-- C8: `KnowledgeGraph` construction deduplicates entities by
case-insensitive name and relationships by the key (lowercased source,
relation type, lowercased target): no two elements of the constructed unit
share an identity key, the kept elements are a subsequence of the input (so
first-seen order is preserved), every input identity key is still
represented, and the unit built from entities named Alice, alice, Bob
contains exactly two entities. -/
theorem C8_dedup_identity_keys (es : List Entity) (rs : List Relationship) :
    ((KnowledgeGraph.construct es rs).entities.Pairwise fun a b =>
      entityKey a ≠ entityKey b) ∧
    ((KnowledgeGraph.construct es rs).relationships.Pairwise fun a b =>
      relKey a ≠ relKey b) ∧
    (KnowledgeGraph.construct es rs).entities.Sublist es ∧
    (KnowledgeGraph.construct es rs).relationships.Sublist rs ∧
    (∀ e ∈ es, ∃ e2 ∈ (KnowledgeGraph.construct es rs).entities,
      entityKey e2 = entityKey e) ∧
    (∀ r ∈ rs, ∃ r2 ∈ (KnowledgeGraph.construct es rs).relationships,
      relKey r2 = relKey r) ∧
    (KnowledgeGraph.construct
      [{ name := "Alice", type := "PERSON", description := none },
       { name := "alice", type := "PERSON", description := none },
       { name := "Bob", type := "PERSON", description := none }] []).entities.length = 2 := by
  refine ⟨dedupBy_pairwise _ _ _, dedupBy_pairwise _ _ _, dedupBy_sublist _ _ _,
    dedupBy_sublist _ _ _, ?_, ?_, by decide⟩
  · intro e he
    exact dedupBy_covers _ _ [] e he (by simp)
  · intro r hr
    exact dedupBy_covers _ _ [] r hr (by simp)

/-- C8, witness: in the Alice/alice/Bob unit the lower-cased duplicate is
represented by the first-seen entity. -/
theorem C8_dedup_identity_keys_witness :
    ∃ e2 ∈ (KnowledgeGraph.construct
      [{ name := "Alice", type := "PERSON", description := none },
       { name := "alice", type := "PERSON", description := none }] []).entities,
      entityKey e2 = entityKey { name := "alice", type := "PERSON", description := none } := by
  have h := C8_dedup_identity_keys
    [{ name := "Alice", type := "PERSON", description := none },
     { name := "alice", type := "PERSON", description := none }] []
  exact h.2.2.2.2.1 { name := "alice", type := "PERSON", description := none } (by decide)

/-- C9: a malformed-JSON response settles a chunk on the first call — the
chunk is discarded (result `none`) after exactly one LLM call, with no
retry; the orchestrator never fails and returns exactly the knowledge graphs
of the successful chunks (the first non-raising attempt within the retry
budget returning good JSON), and a batch in which every chunk fails yields
the empty list rather than an error. -/
theorem C9_chunk_failures_isolated (batch : List (Nat → LLMAttempt))
    (att : Nat → LLMAttempt) :
    (att 0 = LLMAttempt.malformedJSON → extractChunk att = (Except.ok none, 1)) ∧
    extractParallel batch = batch.filterMap chunkSuccess ∧
    ((∀ a ∈ batch, chunkSuccess a = none) → extractParallel batch = []) := by
  have hpar : extractParallel batch = batch.filterMap chunkSuccess := by
    unfold extractParallel
    exact List.filterMap_congr fun a _ => extractChunk_eq_chunkSuccess a
  refine ⟨?_, hpar, ?_⟩
  · intro h
    simp [extractChunk, extractChunkLoop, h]
  · intro h
    rw [hpar]
    exact List.filterMap_eq_nil_iff.mpr h

/-- C9, witness: a chunk whose first call returns malformed JSON is dropped
after one call, and a batch whose only chunk always raises produces the
empty (non-error) result. -/
theorem C9_chunk_failures_isolated_witness :
    extractChunk (fun _ => LLMAttempt.malformedJSON) = (Except.ok none, 1) ∧
    extractParallel [fun _ => LLMAttempt.raises] = [] := by
  have h := C9_chunk_failures_isolated [fun _ => LLMAttempt.raises]
    (fun _ => LLMAttempt.malformedJSON)
  refine ⟨h.1 rfl, h.2.2 ?_⟩
  intro a ha
  have ha2 : a = fun _ => LLMAttempt.raises := by simpa using ha
  rw [ha2]
  rfl

/-- C10: a request with both search flags disabled returns the fixed
no-relevant-information answer with empty vector context, empty graph
context and empty sources, and calls neither the vector store, the graph
store, nor the language model. -/
theorem C10_disabled_searches_no_calls (q : String) (env : RetrieveEnv) :
    retrieve { query := q, use_vector_search := false, use_graph_search := false } env =
      (Except.ok { answer := noInfoAnswer, vector_context := [],
                   graph_context := "", sources := [] },
       { vectorCalled := false, graphCalled := false, llmCalled := false }) := rfl

end GraphRAG
